import Mathlib

/-!
Shallow embedding of the authentication core of the repository
(`0x02-Session_authentication/api/v1/auth/auth.py` and
`0x02-Session_authentication/api/v1/auth/basic_auth.py`), together with
theorems settling the frozen claims about it.

Python strings are modelled as Lean `String` (a list of Unicode scalar
values), Python `None` as `Option.none`, Python byte strings as `List Nat`
(each entry `< 256`), and a raised-and-uncaught Python exception as the
`Except.error` constructor.
-/

/-! ## Strings: Python primitives used by the source -/

/-- Python `s.endswith('/')`: the last character of `s` is `'/'`. -/
def endsWithSlash (s : String) : Bool :=
  s.data.getLast? == some '/'

/-- Python `s.startswith(t)`: `t` is an initial segment of `s`. -/
def pyStartsWith (s t : String) : Bool :=
  s.data.take t.data.length == t.data

/-- The trailing-separator normalization `path if path.endswith('/') else path + '/'`
from `Auth.require_auth`. -/
def normalizeSlash (s : String) : String :=
  if endsWithSlash s then s else s ++ "/"

theorem dataAppend (a b : String) : (a ++ b).data = a.data ++ b.data := rfl

/-! ## fnmatch

Embedding of CPython's `fnmatch.fnmatch(name, pat)` as used by
`Auth.require_auth`.  On POSIX `os.path.normcase` is the identity, so
`fnmatch.fnmatch` is pattern matching with `*` (any run of characters,
including separators), `?` (any single character) and `[...]` character
classes (ranges allowed, `!` negates, a leading `]` is literal, an
unterminated `[` is a literal `[`), anchored at both ends. -/

/-- Scan a character-class body up to the first `]`; `none` if unterminated. -/
def scanClose : List Char → Option (List Char × List Char)
  | [] => none
  | ']' :: rest => some ([], rest)
  | c :: rest =>
    match scanClose rest with
    | none => none
    | some (stuff, r) => some (c :: stuff, r)

/-- Class body after `[`, where a leading `]` (after optional `!`) is literal. -/
def classBody (ps : List Char) : Option (List Char × List Char) :=
  match ps with
  | ']' :: rest =>
    match scanClose rest with
    | none => none
    | some (stuff, r) => some (']' :: stuff, r)
  | _ => scanClose ps

/-- Parse the remainder after a `[`: negation flag, class contents, rest of
the pattern; `none` when the class is unterminated (literal `[`). -/
def parseClass (ps : List Char) : Option (Bool × List Char × List Char) :=
  match ps with
  | '!' :: ps1 => (classBody ps1).map (fun p => (true, p.1, p.2))
  | _ => (classBody ps).map (fun p => (false, p.1, p.2))

/-- Does character `c` belong to the class described by `stuff`
(`x-y` ranges by code point, everything else literal)? -/
def classMatches : List Char → Char → Bool
  | [], _ => false
  | x :: '-' :: y :: rest, c => (x ≤ c && c ≤ y) || classMatches rest c
  | x :: rest, c => (x == c) || classMatches rest c

/-- Glob matcher: `fnmatchFuel fuel pat name`.  The recursion is on an
explicit fuel so that the definition is structurally recursive (hence
kernel-evaluable); every recursive call strictly decreases
`pat.length + name.length`, so fuel `pat.length + name.length + 1` is
always sufficient and the out-of-fuel branch is unreachable from
`fnmatch` below. -/
def fnmatchFuel : Nat → List Char → List Char → Bool
  | 0, _, _ => false
  | _ + 1, [], [] => true
  | _ + 1, [], _ :: _ => false
  | fuel + 1, '*' :: ps, s =>
    fnmatchFuel fuel ps s ||
      (match s with
       | [] => false
       | _ :: s1 => fnmatchFuel fuel ('*' :: ps) s1)
  | fuel + 1, '?' :: ps, s =>
    (match s with
     | [] => false
     | _ :: s1 => fnmatchFuel fuel ps s1)
  | fuel + 1, '[' :: ps, s =>
    (match parseClass ps with
     | some (neg, stuff, rest) =>
       (match s with
        | [] => false
        | c :: s1 =>
          (if neg then !(classMatches stuff c) else classMatches stuff c) &&
            fnmatchFuel fuel rest s1)
     | none =>
       (match s with
        | [] => false
        | c :: s1 => (c == '[') && fnmatchFuel fuel ps s1))
  | fuel + 1, p :: ps, s =>
    (match s with
     | [] => false
     | c :: s1 => (p == c) && fnmatchFuel fuel ps s1)

/-- `fnmatch.fnmatch(name, pat)` (POSIX `normcase` is the identity). -/
def fnmatch (name pat : String) : Bool :=
  fnmatchFuel (pat.length + name.length + 1) pat.data name.data

/-! ## Requests and the base `Auth` class (`auth.py`) -/

/-- A request: just its header mapping (Flask's header lookup is modelled
as an association-list lookup). -/
structure Request where
  headers : List (String × String)

/-- Convenience constructor: a request carrying one Authorization header. -/
def mkRequest (v : String) : Request :=
  ⟨[("Authorization", v)]⟩

/-- `Auth.authorization_header`: `None` if the request is absent, else
`request.headers.get("Authorization")`. -/
def Auth.authorization_header (request : Option Request) : Option String :=
  match request with
  | none => none
  | some r => (r.headers.find? (fun p => p.fst == "Authorization")).map Prod.snd

/-- `Auth.require_auth(path, excluded_paths)`.  Mirrors the source line by
line: absent path → `True`; falsy (empty) exclusion list → `True`; the
path is normalized in place (`path += '/'`), then the exact-membership
check `path in excluded_paths` runs against the raw entries; a dead
re-check of emptiness; then `fnmatch` of the (re-)normalized path against
each entry. -/
def Auth.require_auth (path : Option String) (excluded_paths : List String) : Bool :=
  match path with
  | none => true
  | some path =>
    if excluded_paths.isEmpty then true
    else if normalizeSlash path ∈ excluded_paths then false
    else if excluded_paths.length = 0 then true
    else if excluded_paths.any (fun ep => fnmatch (normalizeSlash (normalizeSlash path)) ep)
      then false
    else true

/-! ## Claims about `Auth.require_auth` -/

/-- Helper for C9: `List.any` is invariant under permutation. -/
theorem perm_any {α : Type} (f : α → Bool) {l l' : List α} (h : l.Perm l') :
    l.any f = l'.any f := by
  induction h with
  | nil => rfl
  | cons x _ ih => simp [List.any_cons, ih]
  | swap x y l =>
    simp only [List.any_cons]
    rw [← Bool.or_assoc, ← Bool.or_assoc, Bool.or_comm (f y) (f x)]
  | trans _ _ ih1 ih2 => exact ih1.trans ih2

/-- C6: fail-secure defaults — an absent path always requires
authentication, and so does any path when the exclusion list is empty. -/
theorem claim_C6_fail_secure_defaults (l : List String) (p : Option String) :
    Auth.require_auth none l = true ∧ Auth.require_auth p [] = true := by
  refine ⟨rfl, ?_⟩
  cases p <;> rfl

/-- C7: the three concrete vectors — trailing-separator normalization
gives an exact match, a non-matching glob requires auth, a matching glob
exempts. -/
theorem claim_C7_concrete_vectors :
    Auth.require_auth (some "/api/v1/status") ["/api/v1/status/"] = false ∧
    Auth.require_auth (some "/api/v1/users/55") ["/api/v1/stat*"] = true ∧
    Auth.require_auth (some "/api/v1/stats/") ["/api/v1/stat*"] = false := by
  refine ⟨by decide, by decide, by decide⟩

/-- C2 counterexample: `"/a"` lacks a trailing separator and the exclusion
list contains `"/a"` verbatim, yet `require_auth` returns `true` — the
exact-equality check never sees the literal (un-normalized) path, only the
normalized one. -/
theorem claim_C2_counterexample :
    endsWithSlash "/a" = false ∧ "/a" ∈ ["/a"] ∧
      Auth.require_auth (some "/a") ["/a"] = true := by
  refine ⟨by decide, by decide, by decide⟩

/-- C2 (amended): the exact-equality check runs before any wildcard
matching and compares against the exclusion list's raw entries as given,
but it tests only the normalized form of the path: whenever the list
contains the normalized path verbatim, `require_auth` returns `false`. -/
theorem claim_C2_exact_match_normalized (p : String) (l : List String)
    (h : normalizeSlash p ∈ l) :
    Auth.require_auth (some p) l = false := by
  have hne : l ≠ [] := List.ne_nil_of_mem h
  simp only [Auth.require_auth]
  rw [if_neg (by simpa [List.isEmpty_iff] using hne)]
  rw [if_pos h]

theorem claim_C2_witness : Auth.require_auth (some "/x") ["/x/"] = false :=
  claim_C2_exact_match_normalized "/x" ["/x/"] (by decide)

/-- C9: permuting the exclusion list never changes the result of
`require_auth`. -/
theorem claim_C9_perm_invariant (p : Option String) (l l' : List String)
    (h : l.Perm l') :
    Auth.require_auth p l = Auth.require_auth p l' := by
  cases p with
  | none => rfl
  | some p0 =>
    simp only [Auth.require_auth]
    have hempty : l.isEmpty = l'.isEmpty := by
      have := h.length_eq
      cases l <;> cases l' <;> simp_all
    have hmem : (normalizeSlash p0 ∈ l) = (normalizeSlash p0 ∈ l') :=
      propext h.mem_iff
    simp only [hempty, hmem, h.length_eq, perm_any _ h]

theorem claim_C9_witness :
    Auth.require_auth (some "/a") ["/a/", "/b/"] =
      Auth.require_auth (some "/a") ["/b/", "/a/"] :=
  claim_C9_perm_invariant (some "/a") ["/a/", "/b/"] ["/b/", "/a/"] (by decide)

/-! ## Base64 (`base64.b64decode` / `binascii.a2b_base64`, non-strict)

`base64.b64decode(s)` on a `str` argument first encodes it as ASCII
(raising a plain `ValueError` — not a `binascii.Error` — when a character
is non-ASCII), then runs `binascii.a2b_base64` in non-strict mode:
characters outside the Base64 alphabet are discarded; `=` padding that
completes a quad ends the decode, ignoring the rest; a leftover partial
quad at the end raises `binascii.Error`.  Shifts/ors of the C source are
written as the equal arithmetic on disjoint bit ranges
(`x << 2 = x * 4`, `x >> 4 = x / 16`, `a | b = a + b`). -/

/-- Errors of `base64.b64decode`: a `binascii.Error` (these subclass
`ValueError` but are caught separately by the source), or the plain
`ValueError` raised for a non-ASCII `str` argument. -/
inductive B64Err where
  | binasciiError : B64Err
  | nonAsciiValueError : B64Err
deriving DecidableEq

/-- `binascii`'s Base64 digit table: value of `c`, or `none` when `c` is
not in the standard alphabet. -/
def table_a2b (c : Char) : Option Nat :=
  let n := c.toNat
  if 65 ≤ n ∧ n ≤ 90 then some (n - 65)
  else if 97 ≤ n ∧ n ≤ 122 then some (26 + (n - 97))
  else if 48 ≤ n ∧ n ≤ 57 then some (52 + (n - 48))
  else if n = 43 then some 62
  else if n = 47 then some 63
  else none

/-- The quad-decoding loop of `binascii.a2b_base64` (non-strict mode),
state `(quad_pos, leftchar, pads)`, output bytes accumulated reversed. -/
def a2bLoop : List Char → Nat → Nat → Nat → List Nat → Except B64Err (List Nat)
  | [], 0, _, _, acc => .ok acc.reverse
  | [], _ + 1, _, _, _ => .error .binasciiError
  | c :: rest, quad_pos, leftchar, pads, acc =>
    if c = '=' then
      if 2 ≤ quad_pos ∧ 4 ≤ quad_pos + (pads + 1) then .ok acc.reverse
      else if 2 ≤ quad_pos then a2bLoop rest quad_pos leftchar (pads + 1) acc
      else a2bLoop rest quad_pos leftchar pads acc
    else
      match table_a2b c with
      | none => a2bLoop rest quad_pos leftchar pads acc
      | some v =>
        match quad_pos with
        | 0 => a2bLoop rest 1 v 0 acc
        | 1 => a2bLoop rest 2 (v % 16) 0 ((leftchar * 4 + v / 16) :: acc)
        | 2 => a2bLoop rest 3 (v % 4) 0 ((leftchar * 16 + v / 4) :: acc)
        | _ => a2bLoop rest 0 0 0 ((leftchar * 64 + v) :: acc)

/-- `base64.b64decode` on a `str` argument (default `validate=False`). -/
def b64decode (s : String) : Except B64Err (List Nat) :=
  if s.data.all (fun c => c.toNat < 128) then a2bLoop s.data 0 0 0 []
  else .error .nonAsciiValueError

/-- The standard Base64 alphabet as an encoding function (`binascii.b2a_base64`). -/
def b2aChar (v : Nat) : Char :=
  if v < 26 then Char.ofNat (65 + v)
  else if v < 52 then Char.ofNat (97 + (v - 26))
  else if v < 62 then Char.ofNat (48 + (v - 52))
  else if v = 62 then '+'
  else '/'

/-- `base64.b64encode`: three input bytes become four alphabet characters;
a final group of one or two bytes is padded with `=`. -/
def b64encodeBytes : List Nat → List Char
  | b1 :: b2 :: b3 :: rest =>
    b2aChar (b1 / 4) :: b2aChar ((b1 % 4) * 16 + b2 / 16) ::
      b2aChar ((b2 % 16) * 4 + b3 / 64) :: b2aChar (b3 % 64) :: b64encodeBytes rest
  | [b1, b2] =>
    [b2aChar (b1 / 4), b2aChar ((b1 % 4) * 16 + b2 / 16), b2aChar ((b2 % 16) * 4), '=']
  | [b1] =>
    [b2aChar (b1 / 4), b2aChar ((b1 % 4) * 16), '=', '=']
  | [] => []

/-! ## UTF-8 (`bytes.decode('utf-8')` / `str.encode('utf-8')`, strict) -/

/-! Strict UTF-8 decoding of a byte sequence into scalar values:
continuation bytes must be `80..BF`, overlong forms, surrogates and
values above `10FFFF` are rejected (CPython's strict `utf-8` codec).
The continuation-byte handling of each encoded length is split into a
helper function of the mutual block. -/
mutual

def utf8Decode : List Nat → Option (List Char)
  | [] => some []
  | b :: rest =>
    if b < 0x80 then (utf8Decode rest).map (fun cs => Char.ofNat b :: cs)
    else if b < 0xE0 then utf8Cont2 b rest
    else if b < 0xF0 then utf8Cont3 b rest
    else if b < 0xF5 then utf8Cont4 b rest
    else none

/-- Continuation of a two-byte sequence; `b ≥ 0xC2` rules out overlongs. -/
def utf8Cont2 (b : Nat) : List Nat → Option (List Char)
  | b2 :: rest2 =>
    if 0xC2 ≤ b ∧ 0x80 ≤ b2 ∧ b2 < 0xC0 then
      (utf8Decode rest2).map (fun cs => Char.ofNat ((b - 0xC0) * 64 + (b2 - 0x80)) :: cs)
    else none
  | [] => none

/-- Continuation of a three-byte sequence; the value bound rules out
overlongs and the surrogate range `D800..DFFF` is rejected. -/
def utf8Cont3 (b : Nat) : List Nat → Option (List Char)
  | b2 :: b3 :: rest3 =>
    if 0x80 ≤ b2 ∧ b2 < 0xC0 ∧ 0x80 ≤ b3 ∧ b3 < 0xC0 ∧
        0x800 ≤ (b - 0xE0) * 4096 + (b2 - 0x80) * 64 + (b3 - 0x80) ∧
        ((b - 0xE0) * 4096 + (b2 - 0x80) * 64 + (b3 - 0x80) < 0xD800 ∨
          0xDFFF < (b - 0xE0) * 4096 + (b2 - 0x80) * 64 + (b3 - 0x80)) then
      (utf8Decode rest3).map
        (fun cs => Char.ofNat ((b - 0xE0) * 4096 + (b2 - 0x80) * 64 + (b3 - 0x80)) :: cs)
    else none
  | _ => none

/-- Continuation of a four-byte sequence; values are confined to
`10000..10FFFF`. -/
def utf8Cont4 (b : Nat) : List Nat → Option (List Char)
  | b2 :: b3 :: b4 :: rest4 =>
    if 0x80 ≤ b2 ∧ b2 < 0xC0 ∧ 0x80 ≤ b3 ∧ b3 < 0xC0 ∧ 0x80 ≤ b4 ∧ b4 < 0xC0 ∧
        0x10000 ≤ (b - 0xF0) * 262144 + (b2 - 0x80) * 4096 + (b3 - 0x80) * 64 + (b4 - 0x80) ∧
        (b - 0xF0) * 262144 + (b2 - 0x80) * 4096 + (b3 - 0x80) * 64 + (b4 - 0x80) < 0x110000 then
      (utf8Decode rest4).map
        (fun cs =>
          Char.ofNat
            ((b - 0xF0) * 262144 + (b2 - 0x80) * 4096 + (b3 - 0x80) * 64 + (b4 - 0x80)) :: cs)
    else none
  | _ => none

end

/-- UTF-8 encoding of one scalar value (`str.encode('utf-8')`). -/
def utf8EncodeChar (c : Char) : List Nat :=
  let n := c.toNat
  if n < 0x80 then [n]
  else if n < 0x800 then [0xC0 + n / 64, 0x80 + n % 64]
  else if n < 0x10000 then [0xE0 + n / 4096, 0x80 + (n / 64) % 64, 0x80 + n % 64]
  else [0xF0 + n / 262144, 0x80 + (n / 4096) % 64, 0x80 + (n / 64) % 64, 0x80 + n % 64]

/-- UTF-8 encoding of a string. -/
def utf8Encode (s : String) : List Nat :=
  (s.data.map utf8EncodeChar).flatten

/-! ## The `BasicAuth` pipeline (`basic_auth.py`) -/

/-- The uncaught Python exception that can escape the core: the plain
`ValueError` raised by `base64.b64decode` for a non-ASCII `str` argument,
which the source's `except (base64.binascii.Error, UnicodeDecodeError)`
clause does not catch. -/
inductive PyExc where
  | valueError : PyExc
deriving DecidableEq

/-- A principal record: all the core uses is its secret-verification
capability (`user.is_valid_password`). -/
structure User where
  is_valid_password : String → Bool

/-- The external principal store: `User.search({'email': value})`,
returning zero or more matches in store order. -/
structure UserStore where
  search : String → List User

/-- `BasicAuth.extract_base64_authorization_header`: the substring after
the literal prefix `"Basic "`, or `None`. -/
def BasicAuth.extract_base64_authorization_header (h : Option String) : Option String :=
  match h with
  | none => none
  | some s =>
    if pyStartsWith s "Basic " then some ⟨s.data.drop ("Basic ".data.length)⟩ else none

/-- `BasicAuth.decode_base64_authorization_header`: `b64decode` then a
strict UTF-8 decode; `binascii.Error` and `UnicodeDecodeError` are caught
and yield `None`, while the plain `ValueError` for a non-ASCII argument
is not caught and propagates. -/
def BasicAuth.decode_base64_authorization_header (h : Option String) :
    Except PyExc (Option String) :=
  match h with
  | none => .ok none
  | some s =>
    match b64decode s with
    | .error .nonAsciiValueError => .error .valueError
    | .error .binasciiError => .ok none
    | .ok bytes =>
      match utf8Decode bytes with
      | none => .ok none
      | some cs => .ok (some ⟨cs⟩)

/-- Split a character list at the first `:`; `none` when there is no `:`
(mirrors the source's `':' not in s` guard plus `s.split(':', 1)`). -/
def splitFirstColon : List Char → Option (List Char × List Char)
  | [] => none
  | c :: rest =>
    if c = ':' then some ([], rest)
    else (splitFirstColon rest).map (fun p => (c :: p.1, p.2))

/-- `BasicAuth.extract_user_credentials`: `(None, None)` when the input is
absent or has no colon, else the text before and after the first colon. -/
def BasicAuth.extract_user_credentials (d : Option String) :
    Option String × Option String :=
  match d with
  | none => (none, none)
  | some s =>
    if s.data.contains ':' then
      match splitFirstColon s.data with
      | some (a, b) => (some ⟨a⟩, some ⟨b⟩)
      | none => (none, none)
    else (none, none)

/-- `BasicAuth.user_object_from_credentials`: look the identifier up in
the store; no match, or a first match whose verify capability rejects the
secret, yields `None`, else the first match. -/
def BasicAuth.user_object_from_credentials (store : UserStore)
    (user_email user_pwd : Option String) : Option User :=
  match user_email with
  | none => none
  | some email =>
    match user_pwd with
    | none => none
    | some pwd =>
      match store.search email with
      | [] => none
      | user :: _ => if user.is_valid_password pwd then some user else none

/-- `BasicAuth.current_user`: the five-stage pipeline, each stage gated on
the previous one's success; an uncaught exception from the decode stage
propagates. -/
def BasicAuth.current_user (store : UserStore) (request : Option Request) :
    Except PyExc (Option User) :=
  match Auth.authorization_header request with
  | none => .ok none
  | some ah =>
    match BasicAuth.extract_base64_authorization_header (some ah) with
    | none => .ok none
    | some b64h =>
      match BasicAuth.decode_base64_authorization_header (some b64h) with
      | .error e => .error e
      | .ok none => .ok none
      | .ok (some decoded) =>
        match BasicAuth.extract_user_credentials (some decoded) with
        | (some email, some pwd) =>
          .ok (BasicAuth.user_object_from_credentials store (some email) (some pwd))
        | _ => .ok none

/-! ## Claims about the `BasicAuth` pipeline: concrete evaluations -/

/-- C10: a header of exactly `"Basic "` passes the scheme-strip stage as
the empty payload, decodes to the empty string, fails at the colon-split
stage, and `current_user` returns the absent sentinel — no fault, no
principal. -/
theorem claim_C10_empty_payload (store : UserStore) :
    BasicAuth.extract_base64_authorization_header (some "Basic ") = some "" ∧
    BasicAuth.decode_base64_authorization_header (some "") = .ok (some "") ∧
    BasicAuth.extract_user_credentials (some "") = (none, none) ∧
    BasicAuth.current_user store (some (mkRequest "Basic ")) = .ok none :=
  ⟨by decide, rfl, by decide, rfl⟩

/-- C1 at the failing input (code bug): with the Authorization header
`"Basic ¢"` the decode stage raises an uncaught `ValueError`
(`base64.b64decode` rejects the non-ASCII `str` argument before
`binascii` runs, and the `except` clause only catches `binascii.Error`
and `UnicodeDecodeError`), so `current_user` returns neither a principal
nor the absent sentinel, contradicting the claim that every non-success
case yields the absent sentinel. -/
theorem claim_C1_uncaught_exception_on_decode_failure (store : UserStore) :
    BasicAuth.current_user store (some (mkRequest "Basic ¢")) = .error .valueError :=
  rfl

/-- C4 at the failing input (code bug): the public operation
`current_user` raises an uncaught `ValueError` past the core for the
non-ASCII Authorization header `"Basic é"`, contradicting the claim that
it always resolves to a boolean/principal/absent outcome. -/
theorem claim_C4_exception_escapes_core (store : UserStore) :
    BasicAuth.decode_base64_authorization_header (some "é") = .error .valueError ∧
    BasicAuth.current_user store (some (mkRequest "Basic é")) = .error .valueError :=
  ⟨rfl, rfl⟩

/-- C3 counterexample: `" "` is outside the standard Base64 alphabet and
yet `decode_base64_authorization_header "QU JD"` succeeds with `"ABC"` —
`b64decode` discards non-alphabet characters instead of failing. -/
theorem claim_C3_counterexample :
    table_a2b ' ' = none ∧
      BasicAuth.decode_base64_authorization_header (some "QU JD") = .ok (some "ABC") :=
  ⟨rfl, rfl⟩

/-! ## C3: non-alphabet characters are discarded, not fatal -/

/-- Characters that `binascii.a2b_base64` (non-strict) does not discard:
Base64 digits and the padding character. -/
def b64KeepChar (c : Char) : Bool :=
  (table_a2b c).isSome || c == '='

/-- Skipping step of the non-strict loop: a discarded character leaves the
whole state unchanged. -/
theorem a2bLoop_skip {c : Char} (hc : ¬(c = '=')) (htab : table_a2b c = none)
    (rest : List Char) (q le p : Nat) (acc : List Nat) :
    a2bLoop (c :: rest) q le p acc = a2bLoop rest q le p acc := by
  simp only [a2bLoop, if_neg hc, htab]

/-- Padding step of the non-strict loop, written with the outer test on
`=` already discharged. -/
theorem a2bLoop_pad (rest : List Char) (q le p : Nat) (acc : List Nat) :
    a2bLoop ('=' :: rest) q le p acc =
      if 2 ≤ q ∧ 4 ≤ q + (p + 1) then .ok acc.reverse
      else if 2 ≤ q then a2bLoop rest q le (p + 1) acc
      else a2bLoop rest q le p acc := by
  simp only [a2bLoop, eq_self_iff_true, if_true]

/-- Removing every discarded character from the input does not change the
result of the decoding loop. -/
theorem a2bLoop_filter (l : List Char) : ∀ (q le p : Nat) (acc : List Nat),
    a2bLoop (l.filter b64KeepChar) q le p acc = a2bLoop l q le p acc := by
  induction l with
  | nil => intro q le p acc; rfl
  | cons c rest ih =>
    intro q le p acc
    by_cases hk : b64KeepChar c
    · rw [List.filter_cons_of_pos hk]
      by_cases hc : c = '='
      · subst hc
        rw [a2bLoop_pad, a2bLoop_pad]
        by_cases h1 : 2 ≤ q ∧ 4 ≤ q + (p + 1)
        · rw [if_pos h1, if_pos h1]
        · rw [if_neg h1, if_neg h1]
          by_cases h2 : 2 ≤ q
          · rw [if_pos h2, if_pos h2, ih ..]
          · rw [if_neg h2, if_neg h2, ih ..]
      · have htab : ∃ v, table_a2b c = some v := by
          rcases h2 : table_a2b c with _ | v
          · exfalso
            apply hc
            have := hk
            simp only [b64KeepChar, h2, Option.isSome_none, Bool.false_or, beq_iff_eq] at this
            exact this
          · exact ⟨v, rfl⟩
        rcases htab with ⟨v, hv⟩
        simp only [a2bLoop, if_neg hc, hv]
        rcases q with _ | _ | _ | q
        · exact ih ..
        · exact ih ..
        · exact ih ..
        · exact ih ..
    · rw [List.filter_cons_of_neg hk]
      have hc : ¬(c = '=') := by
        intro h
        exact hk (by simp [b64KeepChar, h])
      have htab : table_a2b c = none := by
        rcases h2 : table_a2b c with _ | v
        · rfl
        · exact absurd (by simp [b64KeepChar, h2]) hk
      rw [a2bLoop_skip hc htab, ih ..]

/-- C3 (amended): for all-ASCII inputs the decode stage treats characters
outside the Base64 alphabet-and-padding set as discarded rather than
fatal — removing them does not change the result — and when the decoded
bytes are not valid UTF-8 it returns the absent sentinel. -/
theorem claim_C3_discard_semantics (s : String) (bs : List Nat)
    (h : s.data.all (fun c => c.toNat < 128) = true) :
    BasicAuth.decode_base64_authorization_header (some ⟨s.data.filter b64KeepChar⟩) =
      BasicAuth.decode_base64_authorization_header (some s) ∧
    (b64decode s = .ok bs → utf8Decode bs = none →
      BasicAuth.decode_base64_authorization_header (some s) = .ok none) := by
  constructor
  · have hfilter : (s.data.filter b64KeepChar).all (fun c => c.toNat < 128) = true := by
      rw [List.all_eq_true] at h ⊢
      intro c hc
      exact h c (List.mem_filter.mp hc).1
    simp only [BasicAuth.decode_base64_authorization_header, b64decode, hfilter, h, if_true]
    rw [a2bLoop_filter]
  · intro h1 h2
    simp only [BasicAuth.decode_base64_authorization_header, h1, h2]

theorem claim_C3_witness :
    BasicAuth.decode_base64_authorization_header (some ⟨"/w==".data.filter b64KeepChar⟩) =
      BasicAuth.decode_base64_authorization_header (some "/w==") ∧
    BasicAuth.decode_base64_authorization_header (some "/w==") = .ok none :=
  ⟨(claim_C3_discard_semantics "/w==" [255] (by decide)).1,
   (claim_C3_discard_semantics "/w==" [255] (by decide)).2 rfl rfl⟩

/-! ## C8: the scheme-strip stage -/

/-- C8: `extract_base64_authorization_header` succeeds exactly on strings
with the literal prefix `"Basic "` (returning the remainder), fails on an
absent header, and a `"Bearer "`-schemed header makes `current_user`
yield the absent sentinel regardless of the payload. -/
theorem claim_C8_scheme_strip (s pay : String) (store : UserStore) :
    (BasicAuth.extract_base64_authorization_header (some s)).isSome =
      pyStartsWith s "Basic " ∧
    (pyStartsWith s "Basic " = true →
      BasicAuth.extract_base64_authorization_header (some s) =
        some ⟨s.data.drop ("Basic ".data.length)⟩) ∧
    BasicAuth.extract_base64_authorization_header none = none ∧
    BasicAuth.current_user store (some (mkRequest ("Bearer " ++ pay))) = .ok none := by
  refine ⟨?_, ?_, rfl, ?_⟩
  · by_cases hp : pyStartsWith s "Basic " <;>
      simp [BasicAuth.extract_base64_authorization_header, hp]
  · intro hp
    simp [BasicAuth.extract_base64_authorization_header, hp]
  · have hps : pyStartsWith ("Bearer " ++ pay) "Basic " = false := rfl
    have hah : Auth.authorization_header (some (mkRequest ("Bearer " ++ pay))) =
        some ("Bearer " ++ pay) := rfl
    have hext : BasicAuth.extract_base64_authorization_header
        (some ("Bearer " ++ pay)) = none := by
      simp [BasicAuth.extract_base64_authorization_header, hps]
    simp only [BasicAuth.current_user, hah, hext]

theorem claim_C8_witness :
    BasicAuth.extract_base64_authorization_header (some "Basic QQ==") = some "QQ==" :=
  (claim_C8_scheme_strip "Basic QQ==" "" ⟨fun _ => []⟩).2.1 (by decide)

/-! ## C5: the encode/decode round-trip -/

theorem stringMk_data (s : String) : String.mk s.data = s := rfl

theorem b64decode_mk (l : List Char) :
    b64decode (String.mk l) =
      if l.all (fun c => c.toNat < 128) then a2bLoop l 0 0 0 []
      else .error .nonAsciiValueError := rfl

/-- `Char.ofNat` on a valid scalar value is injective on `toNat`. -/
theorem toNat_ofNat_valid {n : Nat} (h : n.isValidChar) : (Char.ofNat n).toNat = n := by
  rw [Char.ofNat, dif_pos h]
  rfl

/-- Every character produced by the Base64 encoder is ASCII. -/
theorem b2a_ascii (v : Nat) : (b2aChar v).toNat < 128 := by
  unfold b2aChar
  split_ifs with h1 h2 h3 h4
  · rw [toNat_ofNat_valid (Or.inl (by omega))]; omega
  · rw [toNat_ofNat_valid (Or.inl (by omega))]; omega
  · rw [toNat_ofNat_valid (Or.inl (by omega))]; omega
  · decide
  · decide

theorem table_b2a : ∀ v : Nat, v < 64 → table_a2b (b2aChar v) = some v := by decide

theorem b2a_ne_pad : ∀ v : Nat, v < 64 → ¬(b2aChar v = '=') := by decide

/-- Data-character steps of the decoding loop, one per quad position. -/
theorem a2bLoop_step0 {c : Char} {v : Nat} (hc : ¬(c = '=')) (hv : table_a2b c = some v)
    (rest : List Char) (le p : Nat) (acc : List Nat) :
    a2bLoop (c :: rest) 0 le p acc = a2bLoop rest 1 v 0 acc := by
  simp only [a2bLoop, if_neg hc, hv]

theorem a2bLoop_step1 {c : Char} {v : Nat} (hc : ¬(c = '=')) (hv : table_a2b c = some v)
    (rest : List Char) (le p : Nat) (acc : List Nat) :
    a2bLoop (c :: rest) 1 le p acc = a2bLoop rest 2 (v % 16) 0 ((le * 4 + v / 16) :: acc) := by
  simp only [a2bLoop, if_neg hc, hv]

theorem a2bLoop_step2 {c : Char} {v : Nat} (hc : ¬(c = '=')) (hv : table_a2b c = some v)
    (rest : List Char) (le p : Nat) (acc : List Nat) :
    a2bLoop (c :: rest) 2 le p acc = a2bLoop rest 3 (v % 4) 0 ((le * 16 + v / 4) :: acc) := by
  simp only [a2bLoop, if_neg hc, hv]

theorem a2bLoop_step3 {c : Char} {v : Nat} (hc : ¬(c = '=')) (hv : table_a2b c = some v)
    (rest : List Char) (le p : Nat) (acc : List Nat) :
    a2bLoop (c :: rest) 3 le p acc = a2bLoop rest 0 0 0 ((le * 64 + v) :: acc) := by
  simp only [a2bLoop, if_neg hc, hv]

/-- Decoding inverts encoding, byte for byte. -/
theorem a2bLoop_encode (bs : List Nat) :
    (∀ b ∈ bs, b < 256) → ∀ (acc : List Nat),
      a2bLoop (b64encodeBytes bs) 0 0 0 acc = .ok (acc.reverse ++ bs) := by
  induction bs using b64encodeBytes.induct with
  | case1 b1 b2 b3 rest ih =>
    intro hb acc
    have h1 : b1 < 256 := hb b1 (by simp)
    have h2 : b2 < 256 := hb b2 (by simp)
    have h3 : b3 < 256 := hb b3 (by simp)
    simp only [b64encodeBytes]
    rw [a2bLoop_step0 (b2a_ne_pad _ (by omega)) (table_b2a _ (by omega)),
      a2bLoop_step1 (b2a_ne_pad _ (by omega)) (table_b2a _ (by omega)),
      a2bLoop_step2 (b2a_ne_pad _ (by omega)) (table_b2a _ (by omega)),
      a2bLoop_step3 (b2a_ne_pad _ (by omega)) (table_b2a _ (by omega)),
      ih (fun b hbm => hb b (by simp [hbm]))]
    have e1 : (b1 / 4) * 4 + ((b1 % 4) * 16 + b2 / 16) / 16 = b1 := by omega
    have e2 : ((b1 % 4) * 16 + b2 / 16) % 16 * 16 + ((b2 % 16) * 4 + b3 / 64) / 4 = b2 := by
      omega
    have e3 : ((b2 % 16) * 4 + b3 / 64) % 4 * 64 + b3 % 64 = b3 := by omega
    rw [e1, e2, e3]
    simp [List.reverse_cons, List.append_assoc]
  | case2 b1 b2 =>
    intro hb acc
    have h1 : b1 < 256 := hb b1 (by simp)
    have h2 : b2 < 256 := hb b2 (by simp)
    simp only [b64encodeBytes]
    rw [a2bLoop_step0 (b2a_ne_pad _ (by omega)) (table_b2a _ (by omega)),
      a2bLoop_step1 (b2a_ne_pad _ (by omega)) (table_b2a _ (by omega)),
      a2bLoop_step2 (b2a_ne_pad _ (by omega)) (table_b2a _ (by omega)),
      a2bLoop_pad]
    rw [if_pos (by omega)]
    have e1 : (b1 / 4) * 4 + ((b1 % 4) * 16 + b2 / 16) / 16 = b1 := by omega
    have e2 : ((b1 % 4) * 16 + b2 / 16) % 16 * 16 + ((b2 % 16) * 4) / 4 = b2 := by omega
    rw [e1, e2]
    simp [List.reverse_cons, List.append_assoc]
  | case3 b1 =>
    intro hb acc
    have h1 : b1 < 256 := hb b1 (by simp)
    simp only [b64encodeBytes]
    rw [a2bLoop_step0 (b2a_ne_pad _ (by omega)) (table_b2a _ (by omega)),
      a2bLoop_step1 (b2a_ne_pad _ (by omega)) (table_b2a _ (by omega)),
      a2bLoop_pad]
    rw [if_neg (by omega), if_pos (by omega), a2bLoop_pad, if_pos (by omega)]
    have e1 : (b1 / 4) * 4 + ((b1 % 4) * 16) / 16 = b1 := by omega
    rw [e1]
    simp [List.reverse_cons]
  | case4 =>
    intro hb acc
    simp [b64encodeBytes, a2bLoop]

/-- Every string the Base64 encoder produces passes the ASCII check. -/
theorem b64encode_ascii (bs : List Nat) :
    (b64encodeBytes bs).all (fun c => c.toNat < 128) = true := by
  induction bs using b64encodeBytes.induct with
  | case1 b1 b2 b3 rest ih =>
    simp only [b64encodeBytes, List.all_cons, Bool.and_eq_true, decide_eq_true_eq]
    exact ⟨b2a_ascii _, b2a_ascii _, b2a_ascii _, b2a_ascii _, ih⟩
  | case2 b1 b2 =>
    simp only [b64encodeBytes, List.all_cons, List.all_nil, Bool.and_eq_true,
      decide_eq_true_eq, and_true]
    exact ⟨b2a_ascii _, b2a_ascii _, b2a_ascii _, by decide⟩
  | case3 b1 =>
    simp only [b64encodeBytes, List.all_cons, List.all_nil, Bool.and_eq_true,
      decide_eq_true_eq, and_true]
    exact ⟨b2a_ascii _, b2a_ascii _, by decide, by decide⟩
  | case4 => rfl

/-- The validity invariant of a scalar value, as a `Nat` fact. -/
theorem char_valid_nat (c : Char) :
    c.toNat < 0xD800 ∨ (0xDFFF < c.toNat ∧ c.toNat < 0x110000) := c.valid

/-- Every byte the UTF-8 encoder produces fits in a byte. -/
theorem utf8EncodeChar_lt (c : Char) : ∀ b ∈ utf8EncodeChar c, b < 256 := by
  intro b hb
  have h := char_valid_nat c
  simp only [utf8EncodeChar] at hb
  split_ifs at hb <;> simp only [List.mem_cons, List.mem_singleton,
    List.not_mem_nil, or_false] at hb <;> omega

theorem utf8Encode_lt (s : String) : ∀ b ∈ utf8Encode s, b < 256 := by
  intro b hb
  simp only [utf8Encode, List.mem_flatten, List.mem_map] at hb
  rcases hb with ⟨l, ⟨c, _, rfl⟩, hbl⟩
  exact utf8EncodeChar_lt c b hbl

/-- One-step equations for the decoder, one per encoded length. -/
theorem utf8Decode_one {b : Nat} (h1 : b < 0x80) (rest : List Nat) :
    utf8Decode (b :: rest) = (utf8Decode rest).map (fun cs => Char.ofNat b :: cs) := by
  rw [utf8Decode, if_pos h1]

theorem utf8Decode_two {b b2 : Nat} (h1 : ¬ b < 0x80) (h2 : b < 0xE0)
    (h3 : 0xC2 ≤ b ∧ 0x80 ≤ b2 ∧ b2 < 0xC0) (tail : List Nat) :
    utf8Decode (b :: b2 :: tail) =
      (utf8Decode tail).map (fun cs => Char.ofNat ((b - 0xC0) * 64 + (b2 - 0x80)) :: cs) := by
  rw [utf8Decode, if_neg h1, if_pos h2, utf8Cont2, if_pos h3]

theorem utf8Decode_three {b b2 b3 : Nat} (h1 : ¬ b < 0x80) (h2 : ¬ b < 0xE0)
    (h3 : b < 0xF0)
    (h4 : 0x80 ≤ b2 ∧ b2 < 0xC0 ∧ 0x80 ≤ b3 ∧ b3 < 0xC0 ∧
      0x800 ≤ (b - 0xE0) * 4096 + (b2 - 0x80) * 64 + (b3 - 0x80) ∧
      ((b - 0xE0) * 4096 + (b2 - 0x80) * 64 + (b3 - 0x80) < 0xD800 ∨
        0xDFFF < (b - 0xE0) * 4096 + (b2 - 0x80) * 64 + (b3 - 0x80))) (tail : List Nat) :
    utf8Decode (b :: b2 :: b3 :: tail) =
      (utf8Decode tail).map
        (fun cs => Char.ofNat ((b - 0xE0) * 4096 + (b2 - 0x80) * 64 + (b3 - 0x80)) :: cs) := by
  rw [utf8Decode, if_neg h1, if_neg h2, if_pos h3, utf8Cont3, if_pos h4]

theorem utf8Decode_four {b b2 b3 b4 : Nat} (h1 : ¬ b < 0x80) (h2 : ¬ b < 0xE0)
    (h3 : ¬ b < 0xF0) (h3a : b < 0xF5)
    (h4 : 0x80 ≤ b2 ∧ b2 < 0xC0 ∧ 0x80 ≤ b3 ∧ b3 < 0xC0 ∧ 0x80 ≤ b4 ∧ b4 < 0xC0 ∧
      0x10000 ≤ (b - 0xF0) * 262144 + (b2 - 0x80) * 4096 + (b3 - 0x80) * 64 + (b4 - 0x80) ∧
      (b - 0xF0) * 262144 + (b2 - 0x80) * 4096 + (b3 - 0x80) * 64 + (b4 - 0x80) < 0x110000)
    (tail : List Nat) :
    utf8Decode (b :: b2 :: b3 :: b4 :: tail) =
      (utf8Decode tail).map
        (fun cs =>
          Char.ofNat ((b - 0xF0) * 262144 + (b2 - 0x80) * 4096 + (b3 - 0x80) * 64 +
            (b4 - 0x80)) :: cs) := by
  rw [utf8Decode, if_neg h1, if_neg h2, if_neg h3, if_pos h3a, utf8Cont4, if_pos h4]

/-- Decoding the encoding of one character consumes exactly its bytes. -/
theorem utf8Decode_encodeChar (c : Char) (tail : List Nat) :
    utf8Decode (utf8EncodeChar c ++ tail) = (utf8Decode tail).map (fun cs => c :: cs) := by
  have h := char_valid_nat c
  simp only [utf8EncodeChar]
  by_cases h1 : c.toNat < 0x80
  · rw [if_pos h1, List.singleton_append, utf8Decode_one h1, Char.ofNat_toNat]
  · by_cases h2 : c.toNat < 0x800
    · rw [if_neg h1, if_pos h2]
      simp only [List.cons_append, List.nil_append]
      rw [utf8Decode_two (by omega) (by omega) (by omega)]
      have e : (0xC0 + c.toNat / 64 - 0xC0) * 64 + (0x80 + c.toNat % 64 - 0x80) = c.toNat := by
        omega
      rw [e, Char.ofNat_toNat]
    · by_cases h3 : c.toNat < 0x10000
      · rw [if_neg h1, if_neg h2, if_pos h3]
        simp only [List.cons_append, List.nil_append]
        rw [utf8Decode_three (by omega) (by omega) (by omega) (by omega)]
        have e : (0xE0 + c.toNat / 4096 - 0xE0) * 4096 + (0x80 + c.toNat / 64 % 64 - 0x80) * 64 +
            (0x80 + c.toNat % 64 - 0x80) = c.toNat := by omega
        rw [e, Char.ofNat_toNat]
      · rw [if_neg h1, if_neg h2, if_neg h3]
        simp only [List.cons_append, List.nil_append]
        rw [utf8Decode_four (by omega) (by omega) (by omega) (by omega) (by omega)]
        have e : (0xF0 + c.toNat / 262144 - 0xF0) * 262144 +
            (0x80 + c.toNat / 4096 % 64 - 0x80) * 4096 +
            (0x80 + c.toNat / 64 % 64 - 0x80) * 64 + (0x80 + c.toNat % 64 - 0x80) = c.toNat := by
          omega
        rw [e, Char.ofNat_toNat]

/-- Strict UTF-8 decoding inverts encoding. -/
theorem utf8_roundtrip (cs : List Char) :
    utf8Decode ((cs.map utf8EncodeChar).flatten) = some cs := by
  induction cs with
  | nil => rfl
  | cons c rest ih =>
    simp only [List.map_cons, List.flatten_cons]
    rw [utf8Decode_encodeChar, ih]
    rfl

theorem utf8_roundtrip_str (s : String) : utf8Decode (utf8Encode s) = some s.data :=
  utf8_roundtrip s.data

/-- A colon placed after a colon-free block is found by `in`. -/
theorem contains_colon_append (l1 l2 : List Char) :
    (l1 ++ ':' :: l2).contains ':' = true :=
  List.elem_eq_true_of_mem (List.mem_append_right _ (List.mem_cons_self _ _))

/-- Splitting at the first colon of `l1 ++ ':' :: l2` with `l1` colon-free
recovers the two blocks. -/
theorem splitFirstColon_append (l1 l2 : List Char) (h : ':' ∉ l1) :
    splitFirstColon (l1 ++ ':' :: l2) = some (l1, l2) := by
  induction l1 with
  | nil => simp [splitFirstColon]
  | cons c cs ih =>
    have hc : ¬(c = ':') := fun e => h (by rw [e]; exact List.mem_cons_self _ _)
    have h' : ':' ∉ cs := fun hm => h (List.mem_cons_of_mem _ hm)
    simp only [List.cons_append, splitFirstColon, if_neg hc, List.append_eq, ih h']
    rfl

/-- C5: for every colon-free identifier and arbitrary secret, the header
`"Basic " ++ base64(utf8(identifier ++ ":" ++ secret))` passes the
scheme-strip stage returning exactly the Base64 payload, the decode stage
recovers exactly the joined credential text, and the split stage recovers
exactly the pair `(identifier, secret)`. -/
theorem claim_C5_roundtrip (id secret : String) (h : ':' ∉ id.data) :
    BasicAuth.extract_base64_authorization_header
        (some ("Basic " ++ String.mk (b64encodeBytes (utf8Encode (id ++ ":" ++ secret))))) =
      some (String.mk (b64encodeBytes (utf8Encode (id ++ ":" ++ secret)))) ∧
    BasicAuth.decode_base64_authorization_header
        (some (String.mk (b64encodeBytes (utf8Encode (id ++ ":" ++ secret))))) =
      .ok (some (id ++ ":" ++ secret)) ∧
    BasicAuth.extract_user_credentials (some (id ++ ":" ++ secret)) =
      (some id, some secret) := by
  refine ⟨?_, ?_, ?_⟩
  · have hsw : pyStartsWith
        ("Basic " ++ String.mk (b64encodeBytes (utf8Encode (id ++ ":" ++ secret))))
        "Basic " = true := by
      unfold pyStartsWith
      rw [dataAppend, List.take_left' rfl]
      exact beq_self_eq_true _
    simp only [BasicAuth.extract_base64_authorization_header, hsw, if_true]
    rw [dataAppend, List.drop_left' rfl]
  · simp only [BasicAuth.decode_base64_authorization_header, b64decode_mk,
      b64encode_ascii, if_true]
    rw [a2bLoop_encode _ (utf8Encode_lt _) [], List.reverse_nil, List.nil_append]
    have hu : utf8Decode (utf8Encode (id ++ ":" ++ secret)) =
        some (id ++ ":" ++ secret).data := utf8_roundtrip_str _
    simp only [hu, stringMk_data]
  · have hdata : (id ++ ":" ++ secret).data = id.data ++ ':' :: secret.data := by
      rw [dataAppend, dataAppend]
      simp
    simp only [BasicAuth.extract_user_credentials, hdata, contains_colon_append, if_true,
      splitFirstColon_append _ _ h]

theorem claim_C5_witness :
    BasicAuth.extract_base64_authorization_header
        (some ("Basic " ++ String.mk (b64encodeBytes (utf8Encode ("u" ++ ":" ++ "p:q"))))) =
      some (String.mk (b64encodeBytes (utf8Encode ("u" ++ ":" ++ "p:q")))) ∧
    BasicAuth.decode_base64_authorization_header
        (some (String.mk (b64encodeBytes (utf8Encode ("u" ++ ":" ++ "p:q"))))) =
      .ok (some ("u" ++ ":" ++ "p:q")) ∧
    BasicAuth.extract_user_credentials (some ("u" ++ ":" ++ "p:q")) =
      (some "u", some "p:q") :=
  claim_C5_roundtrip "u" "p:q" (by decide)
